import Mathlib

/-!
Verification of the orchestration engine of the intelligent-agent repository.

The development shallowly embeds the Python sources:

* `app/core/skills/parallel_executor.py` — the dependency-aware parallel
  skill scheduler (`ParallelSkillExecutor`);
* `app/core/skills/registry.py` — the skill registry (`SkillRegistry`);
* `app/core/graph/intent_v2.py` — the three-tier classification resolver
  (`IntentRecognizerV2`);
* `app/core/graph/intent.py` — the two-tier intent recognizer
  (`IntentRecognizer`);
* `app/core/graph/agent.py` — the pipeline entrypoint (`AgentGraph.run`).

Asynchronous effects are embedded by explicit environments: the behaviour of
a skill handler (return value, raised exception, or timeout) is a function
from the request to an outcome, and each LLM call is a value of type
`Except String _` (`Except.error` models a raised exception).  `asyncio.gather`
returns its values in submission order, so a batch execution is the in-order
image of the batch.  Machine floats (confidences, timeouts) are modelled as
rationals; wall-clock durations are environment-supplied rationals.
-/

namespace AgentMvp

/-! ## Data model of the scheduler (`parallel_executor.py`) -/

/-- A skill invocation request: one element of the `skill_requests` list given
to `ParallelSkillExecutor.execute_skills`, a dict with keys `skill` and
`params`. -/
structure SkillRequest where
  skill : String
  params : List (String × String) := []
deriving DecidableEq, Repr

/-- The `SkillExecutionResult` of `parallel_executor.py` (pydantic model with
fields `skill_name`, `success`, `data`, `message`, `error`,
`execution_time`). -/
structure SkillExecutionResult where
  skill_name : String
  success : Bool
  data : Option String := none
  message : Option String := none
  error : Option String := none
  execution_time : ℚ
deriving DecidableEq, Repr

/-- Behaviour of one awaited skill invocation
`await asyncio.wait_for(skill.execute(params, session_id), timeout=...)`:
it either returns a value (from which `_execute_single_skill` reads `data`
and `message`), raises an exception, or exceeds the timeout
(`asyncio.TimeoutError`).  `elapsed` is the wall-clock duration
`(datetime.now() - start_time).total_seconds()` observed in that branch. -/
inductive SkillOutcome where
  | ok (data : Option String) (message : Option String) (elapsed : ℚ)
  | raises (msg : String) (elapsed : ℚ)
  | timesOut (elapsed : ℚ)
deriving DecidableEq, Repr

/-- The behaviour environment for one scheduling run: what each awaited
invocation does.  Requests are compared structurally, so two invocations of
the same request behave alike. -/
def SkillEnv : Type := SkillRequest → SkillOutcome

/-- A registered skill (`BaseSkill` of `base.py`): only its identity is
needed by the scheduler; its handler behaviour lives in `SkillEnv`. -/
structure BaseSkill where
  name : String
  description : String := ""
deriving DecidableEq, Repr

/-- The duck-typed registry object the executor holds: Python resolves the
attribute `get_skill` on it at call time.  `get_skill = none` models an
object whose class does not define a `get_skill` method, in which case the
attribute access raises `AttributeError`. -/
structure RegistryObject where
  get_skill : Option (String → Option BaseSkill)

/-- The `SkillRegistry` of `registry.py`: a dict from skill name to skill.
Its `__init__` registers `QueryMetricsSkill`, `GenerateReportSkill` and
`AnalyzeRootCauseSkill`, keyed by `skill.name = self.__class__.__name__`. -/
structure SkillRegistry where
  skills : List (String × BaseSkill)
deriving Repr

/-- The method `SkillRegistry.get`: `self.skills.get(skill_name)`. -/
def SkillRegistry.get (r : SkillRegistry) (skill_name : String) : Option BaseSkill :=
  (r.skills.find? (fun p => p.fst == skill_name)).map (fun p => p.snd)

/-- The `SkillRegistry` instance produced by `SkillRegistry.__init__` (with
`_register_skills`). -/
def SkillRegistry.mk_default : SkillRegistry :=
  { skills := [("QueryMetricsSkill", { name := "QueryMetricsSkill" }),
               ("GenerateReportSkill", { name := "GenerateReportSkill" }),
               ("AnalyzeRootCauseSkill", { name := "AnalyzeRootCauseSkill" })] }

/-- The registry object the executor sees when constructed with a
`SkillRegistry`.  `registry.py` defines the methods `register`, `get`,
`list_skills`, `get_langchain_tools` and `close` on `SkillRegistry`; it does
not define `get_skill`, so the attribute is absent. -/
def SkillRegistry.asObject (_r : SkillRegistry) : RegistryObject :=
  { get_skill := none }

/-- The message of the `AttributeError` raised by
`self.registry.get_skill(skill_name)` when the registry is a
`SkillRegistry`. -/
def attributeErrorGetSkill : String :=
  "\x27SkillRegistry\x27 object has no attribute \x27get_skill\x27"

/-- State of a `ParallelSkillExecutor`: constructor arguments plus the
`dependency_graph` dict (initially
`{"analyze_root_cause": ["query_metrics"]}`, mutable through
`add_dependency`). -/
structure ParallelSkillExecutor where
  registry : RegistryObject
  max_concurrency : Nat := 5
  default_timeout : ℚ := 30
  dependency_graph : List (String × List String) :=
    [("analyze_root_cause", ["query_metrics"])]

/-- The executor `ParallelSkillExecutor.__init__` returns when constructed
with a `SkillRegistry` and the given options (the dependency graph starts
at its default and may later be mutated by `add_dependency`; `g` is its
current value). -/
def mk_with_skill_registry (reg : SkillRegistry) (mc : Nat) (dt : ℚ)
    (g : List (String × List String)) : ParallelSkillExecutor :=
  { registry := reg.asObject, max_concurrency := mc, default_timeout := dt,
    dependency_graph := g }

/-- Python `dict.get(key, default)` over an association list (keys are
unique in the modelled dicts; `find?` returns the binding). -/
def dictGetD {β : Type} (d : List (String × β)) (key : String) (dflt : β) : β :=
  match d.find? (fun p => p.fst == key) with
  | some p => p.snd
  | none => dflt

/-- The `dependency_map[skill_name]` entry in `_build_execution_batches`: the
dependencies of `skill_name` restricted to the requested skill names
(`valid_deps = [d for d in dependencies if d in requested_skills]`). -/
def valid_deps (ex : ParallelSkillExecutor) (requested_skills : List String)
    (skill_name : String) : List String :=
  (dictGetD ex.dependency_graph skill_name []).filter
    (fun d => decide (d ∈ requested_skills))

/-- The `ready_skills` list computed by one iteration of the scheduling loop
before the cycle check: the not-yet-scheduled names all of whose restricted
dependencies are already scheduled
(`all(dep not in remaining for dep in deps)`). -/
def ready_skills0 (depMap : String → List String) (remaining : List String) :
    List String :=
  remaining.filter (fun n => (depMap n).all (fun d => decide (d ∉ remaining)))

/-- The `ready_skills` actually used by the iteration: if none is ready a
cycle has been detected and all remaining names are forced
(`ready_skills = list(remaining)`). -/
def loop_ready (depMap : String → List String) (remaining : List String) :
    List String :=
  if (ready_skills0 depMap remaining).isEmpty then remaining
  else ready_skills0 depMap remaining

/-- The `while remaining:` loop of `_build_execution_batches`.  Each
iteration emits the batch `[req for req in skill_requests if req["skill"]
in ready_skills]` paired with the cycle-diagnostic flag (`true` exactly when
the forced branch ran), then removes the ready names from `remaining`.
`remaining` is a Python set; only membership in it is ever used, so it is
carried as a list. -/
def schedule_loop (depMap : String → List String)
    (skill_requests : List SkillRequest) (remaining : List String) :
    List (List SkillRequest × Bool) :=
  if h : remaining.isEmpty then []
  else
    (skill_requests.filter (fun r => decide (r.skill ∈ loop_ready depMap remaining)),
      (ready_skills0 depMap remaining).isEmpty)
    :: schedule_loop depMap skill_requests
        (remaining.filter (fun n => decide (n ∉ loop_ready depMap remaining)))
termination_by remaining.length
decreasing_by
  have hne : remaining ≠ [] := by simpa [List.isEmpty_iff] using h
  obtain ⟨x, hx_mem, hx_ready⟩ :
      ∃ x, x ∈ remaining ∧ x ∈ loop_ready depMap remaining := by
    unfold loop_ready
    by_cases h0 : (ready_skills0 depMap remaining).isEmpty
    · obtain ⟨x, hx⟩ := List.exists_mem_of_ne_nil remaining hne
      exact ⟨x, hx, by simpa [h0] using hx⟩
    · obtain ⟨x, hx⟩ := List.exists_mem_of_ne_nil (ready_skills0 depMap remaining)
        (by simpa [List.isEmpty_iff] using h0)
      exact ⟨x, (List.mem_filter.mp hx).1, by simpa [h0] using hx⟩
  have key : ∀ (l : List String) (p : String → Bool) (a : String),
      a ∈ l → p a = false → (l.filter p).length < l.length := by
    intro l p a ha hpa
    induction l with
    | nil => cases ha
    | cons b t ih =>
      by_cases hpb : p b = true
      · have hat : a ∈ t := by
          rcases List.mem_cons.mp ha with rfl | hmem
          · exact absurd hpb (by simp [hpa])
          · exact hmem
        simpa [List.filter_cons, hpb] using Nat.succ_lt_succ (ih hat)
      · have hpb2 : p b = false := by simpa using hpb
        simp only [List.filter_cons, hpb2, if_neg, Bool.false_eq_true,
          not_false_iff, List.length_cons]
        exact Nat.lt_succ_of_le (List.length_filter_le p t)
  exact key remaining _ x hx_mem (by simp [hx_ready])

/-- Fuel-bounded structural clone of `schedule_loop`, used only to evaluate
the loop on concrete inputs (the well-founded recursion of `schedule_loop`
does not reduce inside the kernel); `schedule_loop_eq_fuel` below proves it
computes the same batches whenever the fuel covers `remaining.length`. -/
def schedule_loop_fuel (d : String → List String)
    (s : List SkillRequest) : Nat → List String →
    List (List SkillRequest × Bool)
  | 0, _ => []
  | Nat.succ fuel, remaining =>
    if remaining.isEmpty then []
    else
      (s.filter (fun r => decide (r.skill ∈ loop_ready d remaining)),
        (ready_skills0 d remaining).isEmpty)
      :: schedule_loop_fuel d s fuel
          (remaining.filter (fun n => decide (n ∉ loop_ready d remaining)))

/-- The loop of `_build_execution_batches`, instrumented with the cycle flag of each
iteration.  `requested_skills.dedup` is the set `set(requested_skills)`:
only membership in `remaining` is ever consulted, so the deduplicated list
is an exact model of the Python set. -/
def batches_flagged (ex : ParallelSkillExecutor)
    (skill_requests : List SkillRequest) : List (List SkillRequest × Bool) :=
  schedule_loop (valid_deps ex (skill_requests.map (fun r => r.skill)))
    skill_requests ((skill_requests.map (fun r => r.skill)).dedup)

/-- Embedding of `ParallelSkillExecutor._build_execution_batches`: the batch list the
loop accumulates (the cycle flag is only logged). -/
def build_execution_batches (ex : ParallelSkillExecutor)
    (skill_requests : List SkillRequest) : List (List SkillRequest) :=
  (batches_flagged ex skill_requests).map Prod.fst

/-- Error message of the timeout branch of `_execute_single_skill`
(`f-string` over `default_timeout`; the model prints the rational where
Python prints the float). -/
def timeoutErrorMsg (ex : ParallelSkillExecutor) : String :=
  "执行超时 (" ++ toString ex.default_timeout ++ "s)"

/-- Embedding of `ParallelSkillExecutor._execute_single_skill`.  The `try` block first
evaluates `self.registry.get_skill(skill_name)` — an attribute access that
raises `AttributeError` when the registry object defines no `get_skill`
method — then raises `ValueError` if the lookup returns nothing, then awaits
the handler with the timeout.  Every raised exception is caught by the
`except` clauses and turned into a failed result; the elapsed time of the
branches that never reach the await is modelled as `0`. -/
def execute_single_skill (ex : ParallelSkillExecutor) (env : SkillEnv)
    (req : SkillRequest) : SkillExecutionResult :=
  match ex.registry.get_skill with
  | none =>
      { skill_name := req.skill, success := false,
        error := some attributeErrorGetSkill, execution_time := 0 }
  | some get_skill_method =>
      match get_skill_method req.skill with
      | none =>
          { skill_name := req.skill, success := false,
            error := some ("Skill " ++ req.skill ++ " 未找到"),
            execution_time := 0 }
      | some _skill =>
          match env req with
          | SkillOutcome.ok d m t =>
              { skill_name := req.skill, success := true, data := d,
                message := m, execution_time := t }
          | SkillOutcome.raises msg t =>
              { skill_name := req.skill, success := false, error := some msg,
                execution_time := t }
          | SkillOutcome.timesOut t =>
              { skill_name := req.skill, success := false,
                error := some (timeoutErrorMsg ex), execution_time := t }

/-- Embedding of `ParallelSkillExecutor._execute_batch`.  The members are submitted as
tasks and awaited with `asyncio.gather(*, return_exceptions=True)` — in
chunks of `max_concurrency` when the batch is larger, the chunk results
being concatenated in order — and `gather` yields values in submission
order, so the value list is the in-order image of the batch.
`_execute_single_skill` catches every exception internally and always
returns a `SkillExecutionResult`, so the `isinstance(result, Exception)`
rewrapping loop passes each value through unchanged. -/
def execute_batch (ex : ParallelSkillExecutor) (env : SkillEnv)
    (batch : List SkillRequest) : List SkillExecutionResult :=
  batch.map (execute_single_skill ex env)

/-- The dict comprehension `{r.skill_name: r for r in all_results}` read at
`skill_name`: the last result carrying that name wins, as in a Python
dict. -/
def results_dict (all_results : List SkillExecutionResult)
    (skill_name : String) : Option SkillExecutionResult :=
  all_results.reverse.find? (fun r => r.skill_name == skill_name)

/-- Embedding of `ParallelSkillExecutor.execute_skills`: build the batches, run them in
order collecting `all_results`, then emit one result per original request —
the dict entry for its skill name, or the fallback failure result when the
name is absent from the dict. -/
def execute_skills (ex : ParallelSkillExecutor) (env : SkillEnv)
    (skill_requests : List SkillRequest) : List SkillExecutionResult :=
  if skill_requests.isEmpty then []
  else
    let batches := build_execution_batches ex skill_requests
    let all_results := (batches.map (execute_batch ex env)).flatten
    skill_requests.map (fun req =>
      match results_dict all_results req.skill with
      | some r => r
      | none =>
          { skill_name := req.skill, success := false,
            error := some ("Skill " ++ req.skill ++ " 未找到或执行失败"),
            execution_time := 0 })

/-! ## Classification resolver V2 (`intent_v2.py`) -/

/-- The table `IntentRecognizerV2.INTENTS`: the closed intent enumeration (name,
description). -/
def INTENTS : List (String × String) :=
  [("query_metrics", "查询业务指标（销售额、用户数等），支持时间范围和多维度筛选"),
   ("generate_report", "生成业务报表（按地区、产品等），支持 CSV、JSON、Excel 格式"),
   ("analyze_root_cause", "分析指标异常原因（节假日、营销活动、系统维护等）"),
   ("chat", "普通对话，不需要调用 Skills")]

/-- Result dict of `recognize_with_params` and of each tier. -/
structure IntentResult where
  intent : String
  confidence : ℚ
  params : List (String × String)
  raw_params : List (String × String)
  method : String
deriving DecidableEq, Repr

/-- One entry of `tool_calls` in the function-calling response:
`function.name` and the raw JSON string `function.arguments`. -/
structure ToolCall where
  name : String
  argumentsRaw : String
deriving DecidableEq, Repr

/-- The `zhipuai.model_api.invoke` response consumed by
`_function_calling_approach`: the status `code` and
`data.choices[0].message.tool_calls` (which may be absent). -/
structure FCResponse where
  code : Int
  tool_calls : Option (List ToolCall)
deriving Repr

/-- The invoke response consumed by the few-shot helpers: status `code` and
`data.choices[0].message.content`. -/
structure PEResponse where
  code : Int
  content : String
deriving Repr

/-- Environment of one `recognize_with_params` call: the outcome of each
external operation the tiers perform.  `Except.error` models a raised
exception. -/
structure LLMEnvV2 where
  /-- The function-calling `invoke` (tier 1); raises on network failure. -/
  fc_invoke : Except String FCResponse
  /-- `json.loads(tool_call["function"]["arguments"])`; raises
  `json.JSONDecodeError` on malformed JSON. -/
  parse_arguments : String → Except String (List (String × String))
  /-- `validate_params(intent, args)` followed by `model_dump()`; raises a
  validation error on schema violation. -/
  validate : String → List (String × String) →
    Except String (List (String × String))
  /-- The intent-classification `invoke` of `_identify_intent_via_fewshot`. -/
  pe_intent_invoke : Except String PEResponse
  /-- The parameter-extraction `invoke` of `_extract_params_via_fewshot`. -/
  pe_params_invoke : Except String PEResponse
  /-- `json.loads(content)` in `_extract_params_via_fewshot`; its
  `JSONDecodeError` is caught locally, hence `Option`. -/
  pe_parse_content : String → Option (List (String × String))

/-- Embedding of `IntentRecognizerV2._function_calling_approach` (tier 1).  Raises when
the invoke raises, when the response code is not 200, or when the tool-call
arguments are not valid JSON; a parameter-validation failure is caught
locally and the raw arguments are kept. -/
def function_calling_approach (env : LLMEnvV2) : Except String IntentResult :=
  match env.fc_invoke with
  | Except.error e => Except.error e
  | Except.ok resp =>
      if resp.code ≠ 200 then
        Except.error ("智谱 API 调用失败: code=" ++ toString resp.code)
      else
        match resp.tool_calls with
        | none =>
            Except.ok { intent := "chat", confidence := 9/10, params := [],
                        raw_params := [], method := "function_calling" }
        | some [] =>
            Except.ok { intent := "chat", confidence := 9/10, params := [],
                        raw_params := [], method := "function_calling" }
        | some (tc :: _) =>
            match env.parse_arguments tc.argumentsRaw with
            | Except.error e => Except.error e
            | Except.ok args =>
                let params_dict :=
                  match env.validate tc.name args with
                  | Except.ok p => p
                  | Except.error _ => args
                Except.ok { intent := tc.name, confidence := 19/20,
                            params := params_dict, raw_params := args,
                            method := "function_calling" }

/-- Embedding of `IntentRecognizerV2._identify_intent_via_fewshot`: returns the stripped
response content when the call succeeded and the content is one of the
`INTENTS` keys, else the default intent `"chat"`; propagates a raised
invoke. -/
def identify_intent_via_fewshot (env : LLMEnvV2) : Except String String :=
  match env.pe_intent_invoke with
  | Except.error e => Except.error e
  | Except.ok resp =>
      if resp.code = 200 ∧ (INTENTS.map Prod.fst).contains resp.content.trim
      then Except.ok resp.content.trim
      else Except.ok "chat"

/-- Embedding of `IntentRecognizerV2._extract_params_via_fewshot`: parses the response
content as JSON, returning `{}` when the call failed or the content is not
JSON; propagates a raised invoke. -/
def extract_params_via_fewshot (env : LLMEnvV2) :
    Except String (List (String × String)) :=
  match env.pe_params_invoke with
  | Except.error e => Except.error e
  | Except.ok resp =>
      if resp.code = 200 then
        match env.pe_parse_content resp.content.trim with
        | some ps => Except.ok ps
        | none => Except.ok []
      else Except.ok []

/-- Embedding of `IntentRecognizerV2._prompt_engineering_approach` (tier 2). -/
def prompt_engineering_approach (env : LLMEnvV2) :
    Except String IntentResult :=
  match identify_intent_via_fewshot env with
  | Except.error e => Except.error e
  | Except.ok intent =>
      if intent = "chat" then
        Except.ok { intent := "chat", confidence := 4/5, params := [],
                    raw_params := [], method := "prompt_engineering" }
      else
        match extract_params_via_fewshot env with
        | Except.error e => Except.error e
        | Except.ok ps =>
            let params_dict :=
              match env.validate intent ps with
              | Except.ok p => p
              | Except.error _ => ps
            Except.ok { intent := intent, confidence := 17/20,
                        params := params_dict, raw_params := ps,
                        method := "prompt_engineering" }

/-- Python substring test `needle in haystack`: the code points of the
needle occur contiguously among those of the haystack (Python compares
strings by code point, as does `Char`). -/
def strContains (haystack needle : String) : Bool :=
  haystack.data.tails.any (fun t => needle.data.isPrefixOf t)

/-- The table `intent_rules` of `_rule_based_approach`, in dict insertion order. -/
def intent_rules : List (String × List String) :=
  [("query_metrics", ["查询", "统计", "多少", "查看", "显示"]),
   ("generate_report", ["报表", "报告", "导出", "生成"]),
   ("analyze_root_cause", ["分析", "原因", "为什么", "下降", "异常"])]

/-- The `best_intent` / `max_matches` accumulation loop of
`_rule_based_approach`, starting from `("chat", 0)` and replacing the
accumulator only on a strictly greater match count. -/
def rule_best (message : String) : String × Nat :=
  intent_rules.foldl
    (fun acc p =>
      let match_count :=
        (p.snd.filter (fun kw => strContains message kw)).length
      if match_count > acc.snd then (p.fst, match_count) else acc)
    ("chat", 0)

/-- The table `metrics_keywords` of `_extract_params_by_rules`, in dict order. -/
def metrics_keywords : List (String × String) :=
  [("销售额", "sales"), ("用户数", "user_count"), ("订单量", "order_count"),
   ("转化率", "conversion_rate")]

/-- Embedding of `IntentRecognizerV2._extract_params_by_rules`: keyword-driven parameter
dict for `query_metrics` (first matching metric keyword, then a time
range with default `"7d"`); empty for every other intent. -/
def extract_params_by_rules (user_message intent : String) :
    List (String × String) :=
  let message := user_message.toLower
  if intent = "query_metrics" then
    let metricParam :=
      match metrics_keywords.find? (fun p => strContains message p.fst) with
      | some p => [("metric", p.snd)]
      | none => []
    let timeParam :=
      if strContains message "今天" || strContains message "当日" then
        [("time_range", "today")]
      else if strContains message "昨天" then [("time_range", "yesterday")]
      else if strContains message "7天" || strContains message "一周" then
        [("time_range", "7d")]
      else if strContains message "30天" || strContains message "一月" then
        [("time_range", "30d")]
      else [("time_range", "7d")]
    metricParam ++ timeParam
  else []

/-- Embedding of `IntentRecognizerV2._rule_based_approach` (tier 3): deterministic, total,
never raises. -/
def rule_based_approach (user_message : String) : IntentResult :=
  let message := user_message.toLower
  let best := rule_best message
  let ps := extract_params_by_rules user_message best.fst
  { intent := best.fst,
    confidence := if best.snd > 0 then 3/5 else 2/5,
    params := ps, raw_params := ps, method := "rule_based" }

/-- State of an `IntentRecognizerV2`: `client_available = bool(api_key)`. -/
structure IntentRecognizerV2 where
  client_available : Bool

/-- Embedding of `IntentRecognizerV2.recognize_with_params`: try tier 1 when a credential
is configured, on any raised exception try tier 2, on any raised exception
fall back to the deterministic tier 3. -/
def recognize_with_params (r : IntentRecognizerV2) (env : LLMEnvV2)
    (user_message : String) : IntentResult :=
  match (if r.client_available then some (function_calling_approach env)
         else none) with
  | some (Except.ok res) => res
  | _ =>
      match (if r.client_available then some (prompt_engineering_approach env)
             else none) with
      | some (Except.ok res) => res
      | _ => rule_based_approach user_message

/-! ## Intent recognizer V1 (`intent.py`) -/

/-- Result dict of `IntentRecognizer.recognize` and of its tiers. -/
structure IntentRecognition where
  intent : String
  confidence : ℚ
  parameters : List (String × String)
  reasoning : String
deriving DecidableEq, Repr

/-- The value found under `"confidence"` in the JSON the model returned:
a number (ints, floats and numeric strings coerce under `float(...)`), a
non-numeric value on which `float(...)` raises, or absent (the code reads
`result.get("confidence", 0.5)`). -/
inductive JsonConfidence where
  | num (q : ℚ)
  | nonNumeric
  | absent
deriving DecidableEq, Repr

/-- Python `float(result.get("confidence", 0.5))`. -/
def pyFloatConfidence : JsonConfidence → Except String ℚ
  | JsonConfidence.num q => Except.ok q
  | JsonConfidence.absent => Except.ok (1/2)
  | JsonConfidence.nonNumeric =>
      Except.error "could not convert value to float"

/-- Fields of the parsed JSON object in `_llm_recognition`
(`result.get("intent")`, `result.get("confidence", 0.5)`,
`result.get("parameters", {})`, `result.get("reasoning", "")`). -/
structure V1Parsed where
  intent : Option String
  confidence : JsonConfidence
  parameters : List (String × String)
  reasoning : String
deriving Repr

/-- The `zhipuai.model_api.invoke` response consumed by `_llm_recognition`. -/
structure V1Response where
  code : Int
  content : String
deriving Repr

/-- Environment of one `IntentRecognizer.recognize` call. -/
structure LLMEnvV1 where
  /-- The LLM invoke; raises on network failure. -/
  invoke : Except String V1Response
  /-- `json.loads(result_text)`; raises on malformed JSON. -/
  json_loads : String → Except String V1Parsed

/-- The markdown-fence stripping in `_llm_recognition` (`result_text[7:]`,
`[3:]`, `[:-3]` guarded by prefix/suffix tests). -/
def strip_markdown (s : String) : String :=
  let s1 := if s.startsWith "```json" then s.drop 7 else s
  let s2 := if s1.startsWith "```" then s1.drop 3 else s1
  if s2.endsWith "```" then s2.dropRight 3 else s2

/-- The `IntentRecognizer.INTENTS` keys (`intent.py` has the same four intents
as V2). -/
def INTENTS_V1_keys : List String :=
  ["query_metrics", "generate_report", "analyze_root_cause", "chat"]

/-- Embedding of `IntentRecognizer._llm_recognition`: raises when the invoke raises, the
code is not 200, the content is not JSON, the intent is not in `INTENTS`,
or `float(...)` fails on the confidence; otherwise returns the result with
the confidence clamped by `max(0.0, min(1.0, confidence))`. -/
def llm_recognition (env : LLMEnvV1) : Except String IntentRecognition :=
  match env.invoke with
  | Except.error e => Except.error e
  | Except.ok resp =>
      if resp.code ≠ 200 then
        Except.error "智谱 AI API 错误"
      else
        match env.json_loads (strip_markdown resp.content.trim) with
        | Except.error e => Except.error e
        | Except.ok parsed =>
            match parsed.intent with
            | none => Except.error "无效的意图: None"
            | some it =>
                if ¬ INTENTS_V1_keys.contains it then
                  Except.error ("无效的意图: " ++ it)
                else
                  match pyFloatConfidence parsed.confidence with
                  | Except.error e => Except.error e
                  | Except.ok c =>
                      Except.ok { intent := it,
                                  confidence := max 0 (min 1 c),
                                  parameters := parsed.parameters,
                                  reasoning := parsed.reasoning }

/-- Keyword table of `_rule_based_recognition`, in dict insertion order. -/
def v1_keywords : List (String × List String) :=
  [("query_metrics", ["查询", "指标", "销售额", "用户数", "订单量", "多少", "统计"]),
   ("generate_report", ["报表", "导出", "csv", "json", "生成", "下载"]),
   ("analyze_root_cause", ["异常", "下降", "上涨", "原因", "分析", "为什么", "根因"]),
   ("chat", ["你好", "谢谢", "再见", "哈哈", "嗯"])]

/-- The `scores` dict of `_rule_based_recognition` as an ordered list. -/
def v1_scores (message : String) : List (String × Nat) :=
  v1_keywords.map
    (fun p => (p.fst, (p.snd.filter (fun w => strContains message w)).length))

/-- Embedding of `IntentRecognizer._rule_based_recognition`: keyword scoring;
`max(scores.values())`, and `max(scores, key=scores.get)` is the first key
attaining the maximum in dict order. -/
def rule_based_recognition (user_message : String) : IntentRecognition :=
  let message := user_message.toLower
  let scores := v1_scores message
  let max_score := (scores.map Prod.snd).foldl max 0
  if max_score = 0 then
    { intent := "chat", confidence := 3/10, parameters := [],
      reasoning := "基于关键词匹配，得分: 0" }
  else
    let intent :=
      match scores.find? (fun p => p.snd == max_score) with
      | some p => p.fst
      | none => "chat"
    let kw_len : ℚ := (dictGetD v1_keywords intent []).length
    { intent := intent,
      confidence := min (9/10) (1/2 + ((max_score : ℚ) / kw_len) * (2/5)),
      parameters := [],
      reasoning := "基于关键词匹配，得分: " ++ toString max_score }

/-- State of an `IntentRecognizer`: `client_available` is set iff an API key
was configured. -/
structure IntentRecognizer where
  client_available : Bool

/-- Embedding of `IntentRecognizer.recognize`: rule matching when no credential is
configured; otherwise the LLM tier, degrading to rule matching on any
raised exception. -/
def recognize (r : IntentRecognizer) (env : LLMEnvV1)
    (user_message : String) : IntentRecognition :=
  if ¬ r.client_available then rule_based_recognition user_message
  else
    match llm_recognition env with
    | Except.ok res => res
    | Except.error _ => rule_based_recognition user_message

/-! ## Pipeline entrypoint (`agent.py`) -/

/-- A LangChain chat message held in the `messages` list of the state. -/
inductive ChatMessage where
  | human (content : String)
  | ai (content : String)
deriving DecidableEq, Repr

/-- The `SkillExecutionResult` of `state.py` (the graph-side result model). -/
structure StateSkillResult where
  skill_name : String
  success : Bool
  data : Option String := none
  error : Option String := none
  execution_time : ℚ
deriving DecidableEq, Repr

/-- A Python value held in the `metadata` dict: a number (Python ints,
floats and bools are all valid right operands of `time.time() - v`) or a
non-numeric value such as a string, on which the subtraction raises
`TypeError`.  A non-numeric value of another type differs only in the type
name inside the raised message. -/
inductive PyValue where
  | num (q : ℚ)
  | bool (b : Bool)
  | str (s : String)
deriving DecidableEq, Repr

/-- Lookup in a Python dict modelled as an insertion-ordered association
list with unique keys. -/
def pyDictGet (d : List (String × PyValue)) (k : String) : Option PyValue :=
  (d.find? (fun p => p.fst == k)).map (fun p => p.snd)

/-- Assignment `d[k] = v` on a Python dict: overwrite in place when the key
exists, append otherwise. -/
def pyDictSet (d : List (String × PyValue)) (k : String) (v : PyValue) :
    List (String × PyValue) :=
  if d.any (fun p => p.fst == k) then
    d.map (fun p => if p.fst == k then (k, v) else p)
  else d ++ [(k, v)]

/-- The dict literal `{...base, **extra}`: the entries of `extra` are
inserted left to right over the base entries, overriding equal keys — so a
caller context carrying a `"start_time"` key shadows the timestamp. -/
def pyDictMerge (base extra : List (String × PyValue)) :
    List (String × PyValue) :=
  extra.foldl (fun acc p => pyDictSet acc p.fst p.snd) base

/-- The str of the `KeyError` raised by a missing `"start_time"` key. -/
def keyErrorStartTime : String := "\x27start_time\x27"

/-- The str of the `TypeError` raised by `time.time() - v` when `v` is a
string. -/
def typeErrorSubMsg : String :=
  "unsupported operand type(s) for -: \x27float\x27 and \x27str\x27"

/-- Python `time.time() - v`: defined for numeric `v` (bools count as 1 or
0), raising `TypeError` for a non-numeric one. -/
def pySubtract (t : ℚ) : PyValue → Except String ℚ
  | PyValue.num q => Except.ok (t - q)
  | PyValue.bool b => Except.ok (t - (if b then 1 else 0))
  | PyValue.str _ => Except.error typeErrorSubMsg

/-- The `AgentState` of `state.py` (the LangGraph state TypedDict); its
`metadata` is a plain dict. -/
structure AgentState where
  session_id : String
  user_message : String
  intent : Option String
  intent_confidence : ℚ
  selected_skills : List String
  skill_results : List StateSkillResult
  messages : List ChatMessage
  final_response : Option String
  metadata : List (String × PyValue)
deriving DecidableEq, Repr

/-- Environment of one `AgentGraph.run` call: the behaviour of the compiled
LangGraph (`self.graph.ainvoke`) and the three `time.time()` readings the
function can take — at state construction, in the success path, and in the
except handler. -/
structure GraphEnv where
  ainvoke : AgentState → Except String AgentState
  start_time : ℚ
  now_try : ℚ
  now_except : ℚ

/-- The initial metadata dict
`{"start_time": time.time(), **(context or {})}`: the caller context is
spread over it and can override `start_time`. -/
def initial_run_metadata (start_time : ℚ)
    (context : List (String × PyValue)) : List (String × PyValue) :=
  pyDictMerge [("start_time", PyValue.num start_time)] context

/-- The `initial_state` built at the top of `AgentGraph.run`. -/
def initial_agent_state (start_time : ℚ) (session_id user_message : String)
    (context : List (String × PyValue)) : AgentState :=
  { session_id := session_id, user_message := user_message, intent := none,
    intent_confidence := 0, selected_skills := [], skill_results := [],
    messages := [ChatMessage.human user_message], final_response := none,
    metadata := initial_run_metadata start_time context }

/-- The `except Exception` handler of `AgentGraph.run`: it builds the
degraded state, but its `execution_time` entry recomputes
`time.time() - initial_state["metadata"]["start_time"]`, so when the
caller context shadowed `start_time` with a non-numeric value the handler
itself raises `TypeError` (or `KeyError` were the key absent), which
propagates out of `run`.  The `messages` entry reuses
`initial_state["messages"]`, the singleton human message. -/
def run_except_handler (env : GraphEnv) (session_id user_message : String)
    (context : List (String × PyValue)) (e : String) :
    Except String AgentState :=
  match pyDictGet (initial_run_metadata env.start_time context)
      "start_time" with
  | none => Except.error keyErrorStartTime
  | some v =>
      match pySubtract env.now_except v with
      | Except.error e2 => Except.error e2
      | Except.ok et =>
          Except.ok
            { session_id := session_id, user_message := user_message,
              intent := some "error", intent_confidence := 0,
              selected_skills := [], skill_results := [],
              messages := [ChatMessage.human user_message],
              final_response :=
                some ("抱歉，处理您的请求时遇到错误: " ++ e),
              metadata := [("success", PyValue.bool false),
                           ("error", PyValue.str e),
                           ("execution_time", PyValue.num et)] }

/-- Embedding of `AgentGraph.run`.  The graph invocation sits in a `try`
block: a raised error goes to the handler.  The success path reads
`final_state["metadata"]["start_time"]` to compute the execution time —
when that entry is missing or non-numeric the raised `KeyError` or
`TypeError` is caught by the same handler — then stamps the metadata with
`execution_time` and `success = True`.  The function returns
`Except.error` exactly when the handler itself raises. -/
def AgentGraph.run (env : GraphEnv) (session_id user_message : String)
    (context : List (String × PyValue)) : Except String AgentState :=
  match env.ainvoke (initial_agent_state env.start_time session_id
      user_message context) with
  | Except.error e => run_except_handler env session_id user_message
      context e
  | Except.ok final_state =>
      match pyDictGet final_state.metadata "start_time" with
      | none => run_except_handler env session_id user_message context
          keyErrorStartTime
      | some v =>
          match pySubtract env.now_try v with
          | Except.error e => run_except_handler env session_id
              user_message context e
          | Except.ok et =>
              Except.ok
                { final_state with
                    metadata := pyDictSet
                      (pyDictSet final_state.metadata "execution_time"
                        (PyValue.num et))
                      "success" (PyValue.bool true) }

/-! ## Helper lemmas: the scheduling loop -/

/-- Unfolding of `schedule_loop` at an empty `remaining` set. -/
lemma schedule_loop_eq_nil (d : String → List String) (s : List SkillRequest)
    (remaining : List String) (h : remaining.isEmpty = true) :
    schedule_loop d s remaining = [] := by
  rw [schedule_loop, dif_pos h]

/-- Unfolding of `schedule_loop` at a non-empty `remaining` set. -/
lemma schedule_loop_cons_eq (d : String → List String)
    (s : List SkillRequest) (remaining : List String)
    (h : remaining.isEmpty = false) :
    schedule_loop d s remaining =
      (s.filter (fun r => decide (r.skill ∈ loop_ready d remaining)),
        (ready_skills0 d remaining).isEmpty)
      :: schedule_loop d s
          (remaining.filter (fun n => decide (n ∉ loop_ready d remaining))) := by
  rw [schedule_loop, dif_neg (by simp [h])]

/-- Dropping at least one element strictly shrinks a filter. -/
lemma length_filter_lt_of_mem {α : Type} (l : List α) (p : α → Bool) (a : α)
    (ha : a ∈ l) (hpa : p a = false) : (l.filter p).length < l.length := by
  induction l with
  | nil => cases ha
  | cons b t ih =>
    by_cases hpb : p b = true
    · have hat : a ∈ t := by
        rcases List.mem_cons.mp ha with rfl | hmem
        · exact absurd hpb (by simp [hpa])
        · exact hmem
      simpa [List.filter_cons, hpb] using Nat.succ_lt_succ (ih hat)
    · have hpb2 : p b = false := by simpa using hpb
      simp only [List.filter_cons, hpb2, Bool.false_eq_true, if_false,
        List.length_cons]
      exact Nat.lt_succ_of_le (List.length_filter_le p t)

/-- A non-empty `remaining` always contributes at least one ready name
(either genuinely ready or forced by the cycle branch). -/
lemma exists_mem_loop_ready (d : String → List String)
    (remaining : List String) (h : remaining.isEmpty = false) :
    ∃ x, x ∈ remaining ∧ x ∈ loop_ready d remaining := by
  have hne : remaining ≠ [] := by simpa [List.isEmpty_iff] using h
  unfold loop_ready
  by_cases h0 : (ready_skills0 d remaining).isEmpty
  · obtain ⟨x, hx⟩ := List.exists_mem_of_ne_nil remaining hne
    exact ⟨x, hx, by simpa [h0] using hx⟩
  · obtain ⟨x, hx⟩ := List.exists_mem_of_ne_nil (ready_skills0 d remaining)
      (by simpa [List.isEmpty_iff] using h0)
    exact ⟨x, (List.mem_filter.mp hx).1, by simpa [h0] using hx⟩

/-- Each loop iteration strictly shrinks `remaining`: the loop
terminates. -/
lemma remaining_filter_lt (d : String → List String)
    (remaining : List String) (h : remaining.isEmpty = false) :
    (remaining.filter (fun n => decide (n ∉ loop_ready d remaining))).length
      < remaining.length := by
  obtain ⟨x, hx, hr⟩ := exists_mem_loop_ready d remaining h
  exact length_filter_lt_of_mem _ _ x hx (by simp [hr])

/-- With enough fuel, the structural clone agrees with the loop. -/
lemma schedule_loop_eq_fuel (d : String → List String)
    (s : List SkillRequest) :
    ∀ (n : Nat) (remaining : List String), remaining.length ≤ n →
      schedule_loop d s remaining = schedule_loop_fuel d s n remaining := by
  intro n
  induction n with
  | zero =>
    intro remaining hlen
    have h0 : remaining = [] := List.length_eq_zero.mp (Nat.le_zero.mp hlen)
    subst h0
    exact schedule_loop_eq_nil d s [] rfl
  | succ n ih =>
    intro remaining hlen
    cases hemp : remaining.isEmpty with
    | true =>
      rw [schedule_loop_eq_nil d s remaining hemp]
      simp [schedule_loop_fuel, hemp]
    | false =>
      rw [schedule_loop_cons_eq d s remaining hemp]
      have hlen2 : (remaining.filter
          (fun n2 => decide (n2 ∉ loop_ready d remaining))).length ≤ n :=
        Nat.lt_succ_iff.mp
          (lt_of_lt_of_le (remaining_filter_lt d remaining hemp) hlen)
      rw [ih _ hlen2]
      simp [schedule_loop_fuel, hemp]

/-- Evaluation form of `batches_flagged` on concrete inputs. -/
lemma batches_flagged_eq_fuel (ex : ParallelSkillExecutor)
    (reqs : List SkillRequest) :
    batches_flagged ex reqs
      = schedule_loop_fuel (valid_deps ex (reqs.map (fun r => r.skill))) reqs
          ((reqs.map (fun r => r.skill)).dedup).length
          ((reqs.map (fun r => r.skill)).dedup) :=
  schedule_loop_eq_fuel _ _ _ _ le_rfl

/-- Every request whose skill name is still unscheduled lands in some later
batch (including the forced batch of the cycle branch). -/
lemma loop_covers (d : String → List String) (s : List SkillRequest) :
    ∀ (n : Nat) (remaining : List String), remaining.length ≤ n →
      ∀ r ∈ s, r.skill ∈ remaining →
      ∃ p ∈ schedule_loop d s remaining, r ∈ p.fst := by
  intro n
  induction n with
  | zero =>
    intro remaining hlen r hrs hskill
    have h0 : remaining = [] := List.length_eq_zero.mp (Nat.le_zero.mp hlen)
    subst h0
    cases hskill
  | succ n ih =>
    intro remaining hlen r hrs hskill
    have hemp : remaining.isEmpty = false := by
      cases remaining
      · cases hskill
      · rfl
    rw [schedule_loop_cons_eq d s remaining hemp]
    by_cases hr : r.skill ∈ loop_ready d remaining
    · refine ⟨_, List.mem_cons_self _ _, ?_⟩
      simp [List.mem_filter, hrs, hr]
    · have hmem2 : r.skill ∈ remaining.filter
          (fun n2 => decide (n2 ∉ loop_ready d remaining)) := by
        simp [List.mem_filter, hskill, hr]
      have hlen2 : (remaining.filter
          (fun n2 => decide (n2 ∉ loop_ready d remaining))).length ≤ n :=
        Nat.lt_succ_iff.mp
          (lt_of_lt_of_le (remaining_filter_lt d remaining hemp) hlen)
      obtain ⟨p, hp, hrp⟩ := ih _ hlen2 r hrs hmem2
      exact ⟨p, List.mem_cons_of_mem _ hp, hrp⟩

/-- A batch flagged as cycle-forced is the last batch the loop emits. -/
lemma loop_forced_last (d : String → List String) (s : List SkillRequest) :
    ∀ (n : Nat) (remaining : List String), remaining.length ≤ n →
      ∀ k batch, (schedule_loop d s remaining)[k]? = some (batch, true) →
      k + 1 = (schedule_loop d s remaining).length := by
  intro n
  induction n with
  | zero =>
    intro remaining hlen k batch hget
    have h0 : remaining = [] := List.length_eq_zero.mp (Nat.le_zero.mp hlen)
    subst h0
    rw [schedule_loop_eq_nil d s [] rfl] at hget
    simp at hget
  | succ n ih =>
    intro remaining hlen k batch hget
    cases hemp : remaining.isEmpty with
    | true =>
      rw [schedule_loop_eq_nil d s remaining hemp] at hget
      simp at hget
    | false =>
      rw [schedule_loop_cons_eq d s remaining hemp] at hget ⊢
      cases k with
      | zero =>
        rw [List.getElem?_cons_zero] at hget
        have hforce : (ready_skills0 d remaining).isEmpty = true := by
          have := (Option.some.injEq _ _).mp hget
          exact (Prod.mk.injEq _ _ _ _).mp this |>.2
        have hlr : loop_ready d remaining = remaining := by
          simp [loop_ready, hforce]
        have h2 : remaining.filter
            (fun n2 => decide (n2 ∉ loop_ready d remaining)) = [] := by
          rw [hlr]
          simp
        rw [h2, schedule_loop_eq_nil d s [] rfl]
        simp
      | succ k2 =>
        rw [List.getElem?_cons_succ] at hget
        have hlen2 : (remaining.filter
            (fun n2 => decide (n2 ∉ loop_ready d remaining))).length ≤ n :=
          Nat.lt_succ_iff.mp
            (lt_of_lt_of_le (remaining_filter_lt d remaining hemp) hlen)
        have hrec := ih _ hlen2 k2 batch hget
        rw [List.length_cons, ← hrec]

/-- Soundness of the topological batching loop: a dependency (restricted to
the requested names) of a member of batch `k` is either already scheduled
before the loop started, or sits in a strictly earlier batch, or — only in
a cycle-forced batch — in batch `k` itself. -/
lemma loop_inv (d : String → List String) (s : List SkillRequest) :
    ∀ (n : Nat) (remaining : List String), remaining.length ≤ n →
      ∀ k batch flag,
      (schedule_loop d s remaining)[k]? = some (batch, flag) →
      ∀ r ∈ batch, ∀ dep ∈ d r.skill, (∃ q ∈ s, q.skill = dep) →
      dep ∉ remaining
      ∨ (∃ b ∈ (schedule_loop d s remaining).take k, ∃ r2 ∈ b.fst,
          r2.skill = dep)
      ∨ (flag = true ∧ ∃ r2 ∈ batch, r2.skill = dep) := by
  intro n
  induction n with
  | zero =>
    intro remaining hlen k batch flag hget r hr dep hdep hq
    have h0 : remaining = [] := List.length_eq_zero.mp (Nat.le_zero.mp hlen)
    subst h0
    rw [schedule_loop_eq_nil d s [] rfl] at hget
    simp at hget
  | succ n ih =>
    intro remaining hlen k batch flag hget r hr dep hdep hq
    cases hemp : remaining.isEmpty with
    | true =>
      rw [schedule_loop_eq_nil d s remaining hemp] at hget
      simp at hget
    | false =>
      rw [schedule_loop_cons_eq d s remaining hemp] at hget
      cases k with
      | zero =>
        rw [List.getElem?_cons_zero] at hget
        injection hget with hpair
        injection hpair with hbatch hflag
        subst hbatch
        subst hflag
        by_cases hforce : (ready_skills0 d remaining).isEmpty
        · by_cases hdr : dep ∈ remaining
          · right; right
            refine ⟨hforce, ?_⟩
            obtain ⟨q, hqs, hqskill⟩ := hq
            refine ⟨q, ?_, hqskill⟩
            have hlr : loop_ready d remaining = remaining := by
              simp [loop_ready, hforce]
            simp [List.mem_filter, hqs, hlr, hqskill, hdr]
          · left; exact hdr
        · left
          have hrmem : r ∈ s ∧ r.skill ∈ loop_ready d remaining := by
            simpa [List.mem_filter] using hr
          have hlr : loop_ready d remaining = ready_skills0 d remaining := by
            simp [loop_ready, hforce]
          have hready : r.skill ∈ ready_skills0 d remaining := by
            rw [← hlr]; exact hrmem.2
          have hall := (List.mem_filter.mp hready).2
          have hdep2 := List.all_eq_true.mp hall dep hdep
          simpa using hdep2
      | succ k2 =>
        rw [List.getElem?_cons_succ] at hget
        have hlen2 : (remaining.filter
            (fun n2 => decide (n2 ∉ loop_ready d remaining))).length ≤ n :=
          Nat.lt_succ_iff.mp
            (lt_of_lt_of_le (remaining_filter_lt d remaining hemp) hlen)
        rcases ih _ hlen2 k2 batch flag hget r hr dep hdep hq with h1 | h2 | h3
        · by_cases hdr : dep ∈ remaining
          · have hlrmem : dep ∈ loop_ready d remaining := by
              by_contra hc
              exact h1 (List.mem_filter.mpr ⟨hdr, by simpa using hc⟩)
            right; left
            rw [schedule_loop_cons_eq d s remaining hemp,
              List.take_succ_cons]
            refine ⟨_, List.mem_cons_self _ _, ?_⟩
            obtain ⟨q, hqs, hqskill⟩ := hq
            refine ⟨q, ?_, hqskill⟩
            simp [List.mem_filter, hqs, hqskill, hlrmem]
          · left; exact hdr
        · right; left
          rw [schedule_loop_cons_eq d s remaining hemp, List.take_succ_cons]
          obtain ⟨b, hb, hbb⟩ := h2
          exact ⟨b, List.mem_cons_of_mem _ hb, hbb⟩
        · right; right; exact h3

/-! ## Helper lemmas: result assembly -/

/-- Every branch of `_execute_single_skill` stamps the result with the
skill name of its request. -/
lemma execute_single_skill_name (ex : ParallelSkillExecutor) (env : SkillEnv)
    (q : SkillRequest) : (execute_single_skill ex env q).skill_name = q.skill := by
  unfold execute_single_skill
  cases ex.registry.get_skill with
  | none => rfl
  | some g =>
    dsimp only
    cases g q.skill with
    | none => rfl
    | some sk =>
      dsimp only
      cases env q <;> rfl

/-- The function `_execute_single_skill` only consults the environment at its own
request. -/
lemma execute_single_skill_env_congr (ex : ParallelSkillExecutor)
    (env env2 : SkillEnv) (q : SkillRequest) (h : env q = env2 q) :
    execute_single_skill ex env q = execute_single_skill ex env2 q := by
  unfold execute_single_skill
  rw [h]

/-- A hit in the results dict is a member of `all_results` carrying the
looked-up name. -/
lemma results_dict_mem (rs : List SkillExecutionResult) (n : String)
    (r : SkillExecutionResult) (h : results_dict rs n = some r) :
    r ∈ rs ∧ r.skill_name = n := by
  unfold results_dict at h
  have hmem := List.mem_of_find?_eq_some h
  have hp := List.find?_some h
  exact ⟨List.mem_reverse.mp hmem, by simpa using hp⟩

/-- A `find?` over two pointwise images agrees when each element either has
equal images or fails the predicate under both. -/
lemma find?_map_congr {α β : Type} (p : β → Bool) (f g : α → β) :
    ∀ (xs : List α),
      (∀ q ∈ xs, f q = g q ∨ (p (f q) = false ∧ p (g q) = false)) →
      (xs.map f).find? p = (xs.map g).find? p := by
  intro xs h
  induction xs with
  | nil => rfl
  | cons a t ih =>
    have htail := ih (fun q hq => h q (List.mem_cons_of_mem a hq))
    rcases h a (List.mem_cons_self a t) with heq | ⟨hf, hg⟩
    · rw [List.map_cons, List.map_cons, heq]
      cases hpg : p (g a) with
      | true =>
        rw [List.find?_cons_of_pos _ hpg, List.find?_cons_of_pos _ hpg]
      | false =>
        rw [List.find?_cons_of_neg _ (by simp [hpg]),
          List.find?_cons_of_neg _ (by simp [hpg])]
        exact htail
    · rw [List.map_cons, List.map_cons,
        List.find?_cons_of_neg _ (by simp [hf]),
        List.find?_cons_of_neg _ (by simp [hg])]
      exact htail

/-- The concatenated batch results are the in-order image of the
concatenated batches under `_execute_single_skill`. -/
lemma all_results_eq_map (ex : ParallelSkillExecutor) (env : SkillEnv)
    (batches : List (List SkillRequest)) :
    ((batches.map (execute_batch ex env)).flatten)
      = batches.flatten.map (execute_single_skill ex env) := by
  rw [List.map_flatten]
  rfl

/-- The result list of `execute_skills` carries, position by position, the
skill names of the request list. -/
lemma execute_skills_names (ex : ParallelSkillExecutor) (env : SkillEnv)
    (reqs : List SkillRequest) :
    (execute_skills ex env reqs).map (fun r => r.skill_name)
      = reqs.map (fun r => r.skill) := by
  unfold execute_skills
  cases hemp : reqs.isEmpty with
  | true =>
    have h0 : reqs = [] := by simpa [List.isEmpty_iff] using hemp
    subst h0
    rfl
  | false =>
    simp only [Bool.false_eq_true, if_false, List.map_map]
    apply List.map_congr_left
    intro req _
    simp only [Function.comp_apply]
    cases hdict : results_dict
        ((List.map (execute_batch ex env)
          (build_execution_batches ex reqs)).flatten) req.skill with
    | none => rfl
    | some r => exact (results_dict_mem _ _ r hdict).2

/-- The function `execute_skills` returns exactly one result per request. -/
lemma execute_skills_length (ex : ParallelSkillExecutor) (env : SkillEnv)
    (reqs : List SkillRequest) :
    (execute_skills ex env reqs).length = reqs.length := by
  have h := congrArg List.length (execute_skills_names ex env reqs)
  simpa using h

/-- The results dict is insensitive to the behaviour of one request `r0` at
every name other than `r0.skill`: failure of one invocation cannot change
the dict entries the sibling requests contribute. -/
lemma results_dict_env_congr (ex : ParallelSkillExecutor)
    (env env2 : SkillEnv) (r0 : SkillRequest)
    (hagree : ∀ q, q ≠ r0 → env q = env2 q)
    (batches : List (List SkillRequest)) (n : String) (hn : n ≠ r0.skill) :
    results_dict ((batches.map (execute_batch ex env)).flatten) n
      = results_dict ((batches.map (execute_batch ex env2)).flatten) n := by
  rw [all_results_eq_map, all_results_eq_map]
  unfold results_dict
  rw [← List.map_reverse, ← List.map_reverse]
  apply find?_map_congr
  intro q hq
  by_cases hq0 : q = r0
  · subst hq0
    right
    constructor
    · simp only [execute_single_skill_name]
      exact beq_eq_false_iff_ne.mpr (fun hc => hn hc.symm)
    · simp only [execute_single_skill_name]
      exact beq_eq_false_iff_ne.mpr (fun hc => hn hc.symm)
  · left
    exact execute_single_skill_env_congr ex env env2 q (hagree q hq0)

/-- Every member of the `execute_skills` output is either the result of a
single-skill execution or the fallback failure result. -/
lemma mem_execute_skills (ex : ParallelSkillExecutor) (env : SkillEnv)
    (reqs : List SkillRequest) (res : SkillExecutionResult)
    (h : res ∈ execute_skills ex env reqs) :
    (∃ q, res = execute_single_skill ex env q)
    ∨ (res.success = false
        ∧ res.error = some ("Skill " ++ res.skill_name ++ " 未找到或执行失败")) := by
  unfold execute_skills at h
  cases hemp : reqs.isEmpty with
  | true =>
    rw [hemp] at h
    simp at h
  | false =>
    rw [hemp] at h
    simp only [Bool.false_eq_true, if_false, List.mem_map] at h
    obtain ⟨req, _, hres⟩ := h
    cases hdict : results_dict
        ((List.map (execute_batch ex env)
          (build_execution_batches ex reqs)).flatten) req.skill with
    | none =>
      rw [hdict] at hres
      dsimp only at hres
      right
      rw [← hres]
      exact ⟨rfl, rfl⟩
    | some r =>
      rw [hdict] at hres
      dsimp only at hres
      left
      obtain ⟨hmem, _⟩ := results_dict_mem _ _ r hdict
      rw [all_results_eq_map] at hmem
      obtain ⟨q, _, hqr⟩ := List.mem_map.mp hmem
      exact ⟨q, by rw [← hres, ← hqr]⟩

/-! ## Helper lemmas: classification tiers -/

/-- Tier 1 only ever reports confidence 0.9 (no tool selected, `chat`) or
0.95 (tool selected). -/
lemma function_calling_confidence (env : LLMEnvV2) (res : IntentResult)
    (h : function_calling_approach env = Except.ok res) :
    res.confidence = 9/10 ∨ res.confidence = 19/20 := by
  unfold function_calling_approach at h
  repeat' split at h
  all_goals simp_all
  all_goals (cases h; simp)

/-- Tier 2 only ever reports confidence 0.8 (`chat`) or 0.85. -/
lemma prompt_engineering_confidence (env : LLMEnvV2) (res : IntentResult)
    (h : prompt_engineering_approach env = Except.ok res) :
    res.confidence = 4/5 ∨ res.confidence = 17/20 := by
  unfold prompt_engineering_approach at h
  repeat' split at h
  all_goals simp_all
  all_goals (cases h; simp)

/-- Tier 3 only ever reports confidence 0.6 or 0.4. -/
lemma rule_based_confidence (msg : String) :
    (rule_based_approach msg).confidence = 3/5
    ∨ (rule_based_approach msg).confidence = 2/5 := by
  by_cases h : (rule_best msg.toLower).snd > 0
  · left; simp [rule_based_approach, h]
  · right; simp [rule_based_approach, h]

/-- The rule-based V1 confidence lies in `[0,1]`. -/
lemma min_conf_bounds (q : ℚ) (hq : 0 ≤ q) :
    0 ≤ min (9/10 : ℚ) (1/2 + q * (2/5))
    ∧ min (9/10 : ℚ) (1/2 + q * (2/5)) ≤ 1 := by
  constructor
  · refine le_min (by norm_num) (by linarith)
  · calc min ((9:ℚ)/10) (1/2 + q * (2/5)) ≤ 9/10 := min_le_left _ _
      _ ≤ 1 := by norm_num

lemma rule_based_recognition_bounds (msg : String) :
    0 ≤ (rule_based_recognition msg).confidence
    ∧ (rule_based_recognition msg).confidence ≤ 1 := by
  by_cases h : ((v1_scores msg.toLower).map Prod.snd).foldl max 0 = 0
  · simp [rule_based_recognition, h]
    norm_num
  · have hq : (0:ℚ) ≤
        ((((v1_scores msg.toLower).map Prod.snd).foldl max 0 : Nat) : ℚ)
          / ((dictGetD v1_keywords
              (match (v1_scores msg.toLower).find?
                  (fun p => p.snd == ((v1_scores msg.toLower).map
                    Prod.snd).foldl max 0) with
               | some p => p.fst
               | none => "chat") []).length : ℚ) := by
      positivity
    have hb := min_conf_bounds _ hq
    simpa [rule_based_recognition, h] using hb

/-- A successful `_llm_recognition` result is clamped to `[0,1]`. -/
lemma llm_recognition_bounds (env : LLMEnvV1) (res : IntentRecognition)
    (h : llm_recognition env = Except.ok res) :
    0 ≤ res.confidence ∧ res.confidence ≤ 1 := by
  unfold llm_recognition at h
  repeat' split at h
  all_goals simp_all
  cases h
  constructor
  · exact le_max_left 0 _
  · exact max_le (by norm_num) (min_le_left 1 _)

/-! ## Claim theorems: classification and pipeline (C6, C7, C8, C9) -/

/-- C6: classification never exhausts its fallback chain.  Without a
credential the rule-based tier answers directly; if the structured tier
raises, the few-shot tier is attempted and its success is returned; if both
LLM tiers raise, the deterministic rule-based tier answers, and that answer
always carries `method = "rule_based"`. -/
theorem claim_C6_fallback_chain (r : IntentRecognizerV2) (env : LLMEnvV2)
    (msg : String) :
    (r.client_available = false →
      recognize_with_params r env msg = rule_based_approach msg)
    ∧ (∀ e1 res, function_calling_approach env = Except.error e1 →
        prompt_engineering_approach env = Except.ok res →
        r.client_available = true →
        recognize_with_params r env msg = res)
    ∧ (∀ e1 e2, function_calling_approach env = Except.error e1 →
        prompt_engineering_approach env = Except.error e2 →
        recognize_with_params r env msg = rule_based_approach msg
        ∧ (recognize_with_params r env msg).method = "rule_based")
    ∧ (rule_based_approach msg).method = "rule_based" := by
  refine ⟨?_, ?_, ?_, rfl⟩
  · intro hno
    unfold recognize_with_params
    rw [hno]
    rfl
  · intro e1 res h1 h2 hyes
    unfold recognize_with_params
    rw [hyes, h1, h2]
    rfl
  · intro e1 e2 h1 h2
    unfold recognize_with_params
    cases hc : r.client_available
    · exact ⟨rfl, rfl⟩
    · rw [h1, h2]
      exact ⟨rfl, rfl⟩

/-- Witness for C6 at a concrete environment in which both LLM tiers
raise. -/
theorem claim_C6_witness :
    recognize_with_params { client_available := true }
        { fc_invoke := Except.error "timeout",
          parse_arguments := fun _ => Except.ok [],
          validate := fun _ a => Except.ok a,
          pe_intent_invoke := Except.error "timeout",
          pe_params_invoke := Except.error "timeout",
          pe_parse_content := fun _ => none } "你好"
      = rule_based_approach "你好"
    ∧ (recognize_with_params { client_available := true }
        { fc_invoke := Except.error "timeout",
          parse_arguments := fun _ => Except.ok [],
          validate := fun _ a => Except.ok a,
          pe_intent_invoke := Except.error "timeout",
          pe_params_invoke := Except.error "timeout",
          pe_parse_content := fun _ => none } "你好").method = "rule_based" :=
  (claim_C6_fallback_chain { client_available := true } _ "你好").2.2.1
    "timeout" "timeout" rfl rfl

/-- C7: every confidence the V1 recognizer can emit lies in `[0,1]`: the
LLM tier clamps with `max(0.0, min(1.0, float(...)))` (non-numeric upstream
values make `float` raise, which degrades to the rule tier), and the rule
tier band is 0.3 or lies between 0.5 and 0.9. -/
theorem claim_C7_confidence_in_unit_interval (r : IntentRecognizer)
    (env : LLMEnvV1) (msg : String) :
    (0 ≤ (recognize r env msg).confidence
      ∧ (recognize r env msg).confidence ≤ 1)
    ∧ (∀ res, llm_recognition env = Except.ok res →
        0 ≤ res.confidence ∧ res.confidence ≤ 1)
    ∧ (0 ≤ (rule_based_recognition msg).confidence
        ∧ (rule_based_recognition msg).confidence ≤ 1) := by
  refine ⟨?_, fun res h => llm_recognition_bounds env res h,
    rule_based_recognition_bounds msg⟩
  unfold recognize
  split
  · exact rule_based_recognition_bounds msg
  · split
    · rename_i res h
      exact llm_recognition_bounds env res h
    · exact rule_based_recognition_bounds msg

/-- Witness for C7 at adversarial upstream confidences 5 and -1 and at a
non-numeric one. -/
theorem claim_C7_witness :
    (0 ≤ (recognize { client_available := true }
        { invoke := Except.ok { code := 200, content := "{}" },
          json_loads := fun _ => Except.ok
            { intent := some "chat", confidence := JsonConfidence.num 5,
              parameters := [], reasoning := "" } } "你好").confidence
      ∧ (recognize { client_available := true }
        { invoke := Except.ok { code := 200, content := "{}" },
          json_loads := fun _ => Except.ok
            { intent := some "chat", confidence := JsonConfidence.num 5,
              parameters := [], reasoning := "" } } "你好").confidence ≤ 1)
    ∧ llm_recognition
        { invoke := Except.ok { code := 200, content := "x" },
          json_loads := fun _ => Except.ok
            { intent := some "chat", confidence := JsonConfidence.num 5,
              parameters := [], reasoning := "" } }
      = Except.ok { intent := "chat", confidence := max 0 (min 1 5),
                    parameters := [], reasoning := "" }
    ∧ 0 ≤ max (0:ℚ) (min 1 5) ∧ max (0:ℚ) (min 1 5) ≤ 1 :=
  ⟨(claim_C7_confidence_in_unit_interval { client_available := true }
      { invoke := Except.ok { code := 200, content := "{}" },
        json_loads := fun _ => Except.ok
          { intent := some "chat", confidence := JsonConfidence.num 5,
            parameters := [], reasoning := "" } } "你好").1,
   rfl,
   (claim_C7_confidence_in_unit_interval { client_available := true }
      { invoke := Except.ok { code := 200, content := "x" },
        json_loads := fun _ => Except.ok
          { intent := some "chat", confidence := JsonConfidence.num 5,
            parameters := [], reasoning := "" } } "你好").2.1
     { intent := "chat", confidence := max 0 (min 1 5), parameters := [],
       reasoning := "" } rfl⟩

/-- C8: the three tier confidence bands are strictly ordered
(structured of 0.9 or 0.95, few-shot of 0.8 or 0.85, rule-based of 0.4 or
0.6), so any structured answer outranks any few-shot answer, which outranks
any rule-based answer. -/
theorem claim_C8_confidence_bands (env : LLMEnvV2) (msg : String)
    (r1 r2 : IntentResult)
    (h1 : function_calling_approach env = Except.ok r1)
    (h2 : prompt_engineering_approach env = Except.ok r2) :
    (rule_based_approach msg).confidence < r2.confidence
    ∧ r2.confidence < r1.confidence := by
  rcases function_calling_confidence env r1 h1 with e1 | e1 <;>
    rcases prompt_engineering_confidence env r2 h2 with e2 | e2 <;>
    rcases rule_based_confidence msg with e3 | e3 <;>
    rw [e1, e2, e3] <;> norm_num

/-- Witness for C8 at a concrete environment in which both LLM tiers
succeed. -/
theorem claim_C8_witness :
    (rule_based_approach "你好").confidence
        < ({ intent := "chat", confidence := 4/5, params := [],
             raw_params := [], method := "prompt_engineering" } :
            IntentResult).confidence
    ∧ ({ intent := "chat", confidence := 4/5, params := [], raw_params := [],
         method := "prompt_engineering" } : IntentResult).confidence
        < ({ intent := "chat", confidence := 9/10, params := [],
             raw_params := [], method := "function_calling" } :
            IntentResult).confidence :=
  claim_C8_confidence_bands
    { fc_invoke := Except.ok { code := 200, tool_calls := none },
      parse_arguments := fun _ => Except.ok [],
      validate := fun _ a => Except.ok a,
      pe_intent_invoke := Except.ok { code := 500, content := "" },
      pe_params_invoke := Except.ok { code := 500, content := "" },
      pe_parse_content := fun _ => none } "你好" _ _ rfl rfl

/-- C9 counterexample: the never-throws contract fails for adversarial
caller contexts.  `agent.py` spreads the caller context over
`{"start_time": time.time()}`, and both the success path and the except
handler recompute `time.time() - start_time`; with
`context = {"start_time": "x"}` the handler itself raises `TypeError`,
which propagates out of `run` — whether the graph raises or completes. -/
theorem claim_C9_counterexample :
    AgentGraph.run
        { ainvoke := fun _ => Except.error "boom", start_time := 0,
          now_try := 0, now_except := 0 }
        "s1" "你好" [("start_time", PyValue.str "x")]
      = Except.error typeErrorSubMsg
    ∧ AgentGraph.run
        { ainvoke := fun st => Except.ok st, start_time := 0,
          now_try := 0, now_except := 0 }
        "s1" "你好" [("start_time", PyValue.str "x")]
      = Except.error typeErrorSubMsg :=
  ⟨rfl, rfl⟩

/-- C9 (amended): whenever the `"start_time"` entry of the initial
metadata is numeric — in particular for every caller context without a
`"start_time"` key — `run` returns a completed state: a raised pipeline
error is caught once and surfaced as the apologetic `final_response` with
`success = False` and the error string, and a successful run is stamped
with `success = True`.  A caller context that shadows `start_time` with a
non-numeric value escapes this contract (see the counterexample). -/
theorem claim_C9_amended (env : GraphEnv) (sid msg : String)
    (context : List (String × PyValue)) (q : ℚ)
    (hstart : pyDictGet (initial_run_metadata env.start_time context)
        "start_time" = some (PyValue.num q)) :
    (∃ st, AgentGraph.run env sid msg context = Except.ok st)
    ∧ (∀ e, env.ainvoke (initial_agent_state env.start_time sid msg context)
          = Except.error e →
        AgentGraph.run env sid msg context
          = Except.ok
              { session_id := sid, user_message := msg,
                intent := some "error", intent_confidence := 0,
                selected_skills := [], skill_results := [],
                messages := [ChatMessage.human msg],
                final_response :=
                  some ("抱歉，处理您的请求时遇到错误: " ++ e),
                metadata := [("success", PyValue.bool false),
                             ("error", PyValue.str e),
                             ("execution_time",
                               PyValue.num (env.now_except - q))] })
    ∧ (∀ fs qf,
        env.ainvoke (initial_agent_state env.start_time sid msg context)
          = Except.ok fs →
        pyDictGet fs.metadata "start_time" = some (PyValue.num qf) →
        AgentGraph.run env sid msg context
          = Except.ok
              { fs with
                  metadata := pyDictSet
                    (pyDictSet fs.metadata "execution_time"
                      (PyValue.num (env.now_try - qf)))
                    "success" (PyValue.bool true) }) := by
  have hhandler : ∀ e, run_except_handler env sid msg context e
      = Except.ok
          { session_id := sid, user_message := msg,
            intent := some "error", intent_confidence := 0,
            selected_skills := [], skill_results := [],
            messages := [ChatMessage.human msg],
            final_response :=
              some ("抱歉，处理您的请求时遇到错误: " ++ e),
            metadata := [("success", PyValue.bool false),
                         ("error", PyValue.str e),
                         ("execution_time",
                           PyValue.num (env.now_except - q))] } := by
    intro e
    unfold run_except_handler
    rw [hstart]
    rfl
  refine ⟨?_, ?_, ?_⟩
  · cases ha : env.ainvoke (initial_agent_state env.start_time sid msg
        context) with
    | error e =>
      exact ⟨_, by
        unfold AgentGraph.run
        rw [ha]
        exact hhandler e⟩
    | ok fs =>
      cases hm : pyDictGet fs.metadata "start_time" with
      | none =>
        exact ⟨_, by
          unfold AgentGraph.run
          rw [ha]
          dsimp only
          rw [hm]
          exact hhandler keyErrorStartTime⟩
      | some v =>
        cases hs : pySubtract env.now_try v with
        | error e =>
          exact ⟨_, by
            unfold AgentGraph.run
            rw [ha]
            dsimp only
            rw [hm]
            dsimp only
            rw [hs]
            exact hhandler e⟩
        | ok et =>
          exact ⟨_, by
            unfold AgentGraph.run
            rw [ha]
            dsimp only
            rw [hm]
            dsimp only
            rw [hs]⟩
  · intro e he
    unfold AgentGraph.run
    rw [he]
    exact hhandler e
  · intro fs qf hfs hfsm
    unfold AgentGraph.run
    rw [hfs]
    dsimp only
    rw [hfsm]
    rfl

/-- Witness for C9 (amended) at an empty caller context and a raising
graph. -/
theorem claim_C9_amended_witness :
    AgentGraph.run
        { ainvoke := fun _ => Except.error "boom", start_time := 10,
          now_try := 11, now_except := 12 }
        "s1" "你好" []
      = Except.ok
          { session_id := "s1", user_message := "你好",
            intent := some "error", intent_confidence := 0,
            selected_skills := [], skill_results := [],
            messages := [ChatMessage.human "你好"],
            final_response :=
              some ("抱歉，处理您的请求时遇到错误: " ++ "boom"),
            metadata := [("success", PyValue.bool false),
                         ("error", PyValue.str "boom"),
                         ("execution_time", PyValue.num (12 - 10))] } :=
  (claim_C9_amended
      { ainvoke := fun _ => Except.error "boom", start_time := 10,
        now_try := 11, now_except := 12 }
      "s1" "你好" [] 10 rfl).2.1 "boom" rfl

/-! ## Claim theorems: the scheduler (C1, C2, C3, C4, C5, C10) -/

/-- C1: ordering round-trip law.  For every dependency graph, behaviour
environment and request list, `execute_skills` returns exactly one result
per request and the result at every position carries the skill name of the
request at that position, however the requests were batched internally. -/
theorem claim_C1_ordering_round_trip (ex : ParallelSkillExecutor)
    (env : SkillEnv) (reqs : List SkillRequest) :
    (execute_skills ex env reqs).length = reqs.length
    ∧ (execute_skills ex env reqs).map (fun r => r.skill_name)
        = reqs.map (fun r => r.skill)
    ∧ ∀ i : Nat,
        ((execute_skills ex env reqs)[i]?).map (fun r => r.skill_name)
          = (reqs[i]?).map (fun r => r.skill) := by
  refine ⟨execute_skills_length ex env reqs,
    execute_skills_names ex env reqs, ?_⟩
  intro i
  have h := congrArg (fun l => l[i]?) (execute_skills_names ex env reqs)
  simpa [List.getElem?_map] using h

/-- C4: failure isolation in a batch.  One result per member; a member
whose handler raises (or times out) yields a failed result with that error
at its own position; and changing the behaviour of one request changes
neither the batch results at positions held by other requests nor the
`execute_skills` results at positions whose skill name differs. -/
theorem claim_C4_failure_isolation (ex : ParallelSkillExecutor)
    (env : SkillEnv) (batch : List SkillRequest) :
    (execute_batch ex env batch).length = batch.length
    ∧ (∀ (i : Nat) (hi : i < batch.length) gs sk msg t,
        ex.registry.get_skill = some gs →
        gs batch[i].skill = some sk →
        env batch[i] = SkillOutcome.raises msg t →
        (execute_batch ex env batch)[i]? =
          some { skill_name := batch[i].skill, success := false,
                 error := some msg, execution_time := t })
    ∧ (∀ (i : Nat) (hi : i < batch.length) gs sk t,
        ex.registry.get_skill = some gs →
        gs batch[i].skill = some sk →
        env batch[i] = SkillOutcome.timesOut t →
        (execute_batch ex env batch)[i]? =
          some { skill_name := batch[i].skill, success := false,
                 error := some (timeoutErrorMsg ex), execution_time := t })
    ∧ (∀ (env2 : SkillEnv) (r0 : SkillRequest),
        (∀ q, q ≠ r0 → env q = env2 q) →
        (∀ (j : Nat) (hj : j < batch.length), batch[j] ≠ r0 →
          (execute_batch ex env batch)[j]?
            = (execute_batch ex env2 batch)[j]?)
        ∧ (∀ (reqs : List SkillRequest) (j : Nat) (hj : j < reqs.length),
            reqs[j].skill ≠ r0.skill →
            (execute_skills ex env reqs)[j]?
              = (execute_skills ex env2 reqs)[j]?)) := by
  refine ⟨List.length_map _ _, ?_, ?_, ?_⟩
  · intro i hi gs sk msg t hreg hsk henv
    unfold execute_batch
    rw [List.getElem?_map, List.getElem?_eq_getElem hi]
    unfold execute_single_skill
    rw [hreg]
    dsimp only [Option.map]
    rw [hsk]
    dsimp only
    rw [henv]
  · intro i hi gs sk t hreg hsk henv
    unfold execute_batch
    rw [List.getElem?_map, List.getElem?_eq_getElem hi]
    unfold execute_single_skill
    rw [hreg]
    dsimp only [Option.map]
    rw [hsk]
    dsimp only
    rw [henv]
  · intro env2 r0 hagree
    constructor
    · intro j hj hne
      unfold execute_batch
      rw [List.getElem?_map, List.getElem?_map,
        List.getElem?_eq_getElem hj]
      dsimp only [Option.map]
      rw [execute_single_skill_env_congr ex env env2 batch[j]
        (hagree batch[j] hne)]
    · intro reqs j hj hne
      unfold execute_skills
      cases hemp : reqs.isEmpty with
      | true => rfl
      | false =>
        simp only [Bool.false_eq_true, if_false, List.getElem?_map,
          List.getElem?_eq_getElem hj]
        dsimp only [Option.map]
        rw [results_dict_env_congr ex env env2 r0 hagree
          (build_execution_batches ex reqs) reqs[j].skill hne]

/-- Witness for C4: a two-member batch in which the handler of member one
raises; its slot gets the failed result with the raised message. -/
theorem claim_C4_witness :
    (execute_batch
        { registry := { get_skill := some (fun n => some { name := n }) } }
        (fun q => if q.skill = "a" then SkillOutcome.raises "boom" 1
                  else SkillOutcome.ok none none 2)
        [{ skill := "a" }, { skill := "b" }])[0]?
      = some { skill_name := "a", success := false, error := some "boom",
               execution_time := 1 } :=
  (claim_C4_failure_isolation
      { registry := { get_skill := some (fun n => some { name := n }) } }
      (fun q => if q.skill = "a" then SkillOutcome.raises "boom" 1
                else SkillOutcome.ok none none 2)
      [{ skill := "a" }, { skill := "b" }]).2.1 0 (by decide)
    (fun n => some { name := n }) { name := "a" } "boom" 1 rfl rfl rfl

/-- C2: batch construction respects dependencies.  A requested dependency
of a member of batch `k` appears in a strictly earlier batch, except in a
cycle-forced batch where it may appear in batch `k` itself; requests with
no requested dependencies form a single batch; and the two-skill request
with `B` depending on `A` yields exactly the batches `[A]` then `[B]`. -/
theorem claim_C2_batches_respect_dependencies (ex : ParallelSkillExecutor)
    (reqs : List SkillRequest) :
    (∀ k batch flag, (batches_flagged ex reqs)[k]? = some (batch, flag) →
      ∀ r ∈ batch,
      ∀ dep ∈ valid_deps ex (reqs.map (fun r => r.skill)) r.skill,
      (∃ b ∈ (batches_flagged ex reqs).take k, ∃ r2 ∈ b.fst, r2.skill = dep)
      ∨ (flag = true ∧ ∃ r2 ∈ batch, r2.skill = dep))
    ∧ ((∀ r ∈ reqs, valid_deps ex (reqs.map (fun r => r.skill)) r.skill = [])
        → reqs ≠ [] → build_execution_batches ex reqs = [reqs])
    ∧ (∀ A B pA pB, A ≠ B →
        valid_deps ex [A, B] A = [] →
        valid_deps ex [A, B] B = [A] →
        build_execution_batches ex
            [{ skill := A, params := pA }, { skill := B, params := pB }]
          = [[{ skill := A, params := pA }],
             [{ skill := B, params := pB }]]) := by
  refine ⟨?_, ?_, ?_⟩
  · intro k batch flag hget r hr dep hdep
    unfold batches_flagged at hget ⊢
    have hdep_names : dep ∈ reqs.map (fun r => r.skill) := by
      have h2 := (List.mem_filter.mp hdep).2
      simpa using h2
    have hq : ∃ q ∈ reqs, q.skill = dep := by
      obtain ⟨q, hq1, hq2⟩ := List.mem_map.mp hdep_names
      exact ⟨q, hq1, hq2⟩
    have hkey := loop_inv (valid_deps ex (reqs.map (fun r => r.skill))) reqs
        ((reqs.map (fun r => r.skill)).dedup).length
        ((reqs.map (fun r => r.skill)).dedup) le_rfl k batch flag hget
        r hr dep hdep hq
    rcases hkey with h1 | h2 | h3
    · exact absurd (List.mem_dedup.mpr hdep_names) h1
    · exact Or.inl h2
    · exact Or.inr h3
  · intro hnodeps hne
    have hnames_ne : reqs.map (fun r => r.skill) ≠ [] := by
      simpa using hne
    have hdedup_ne : (reqs.map (fun r => r.skill)).dedup ≠ [] := by
      simpa [List.dedup_eq_nil] using hnames_ne
    have hemp : ((reqs.map (fun r => r.skill)).dedup).isEmpty = false :=
      List.isEmpty_eq_false.mpr hdedup_ne
    have hval : ∀ x ∈ (reqs.map (fun r => r.skill)).dedup,
        valid_deps ex (reqs.map (fun r => r.skill)) x = [] := by
      intro x hx
      obtain ⟨q, hq1, hq2⟩ := List.mem_map.mp (List.mem_dedup.mp hx)
      rw [← hq2]
      exact hnodeps q hq1
    have hready0 : ready_skills0
        (valid_deps ex (reqs.map (fun r => r.skill)))
        ((reqs.map (fun r => r.skill)).dedup)
        = (reqs.map (fun r => r.skill)).dedup := by
      unfold ready_skills0
      refine List.filter_eq_self.mpr ?_
      intro a ha
      rw [hval a ha]
      rfl
    have hlr : loop_ready (valid_deps ex (reqs.map (fun r => r.skill)))
        ((reqs.map (fun r => r.skill)).dedup)
        = (reqs.map (fun r => r.skill)).dedup := by
      unfold loop_ready
      rw [hready0]
      exact ite_self _
    have hbatch : reqs.filter (fun r => decide (r.skill ∈
        loop_ready (valid_deps ex (reqs.map (fun r => r.skill)))
          ((reqs.map (fun r => r.skill)).dedup))) = reqs := by
      rw [hlr]
      refine List.filter_eq_self.mpr ?_
      intro a ha
      simp only [decide_eq_true_eq, List.mem_dedup]
      exact List.mem_map_of_mem _ ha
    have hrem2 : ((reqs.map (fun r => r.skill)).dedup).filter
        (fun n => decide (n ∉
          loop_ready (valid_deps ex (reqs.map (fun r => r.skill)))
            ((reqs.map (fun r => r.skill)).dedup))) = [] := by
      rw [hlr]
      simp
    unfold build_execution_batches batches_flagged
    rw [schedule_loop_cons_eq _ _ _ hemp, hrem2,
      schedule_loop_eq_nil _ _ [] rfl]
    simp only [List.map_cons, List.map_nil]
    rw [hbatch]
  · intro A B pA pB hAB hA hB
    have hBA : B ≠ A := fun h => hAB h.symm
    unfold build_execution_batches batches_flagged
    have hmap : ([{ skill := A, params := pA },
        { skill := B, params := pB }] : List SkillRequest).map
          (fun r => r.skill) = [A, B] := rfl
    rw [hmap]
    have hded : ([A, B] : List String).dedup = [A, B] := by
      rw [List.dedup_cons_of_not_mem (by simp [hAB]),
        List.dedup_cons_of_not_mem (by simp), List.dedup_nil]
    rw [hded]
    have hready1 : ready_skills0 (valid_deps ex [A, B]) [A, B] = [A] := by
      unfold ready_skills0
      rw [List.filter_cons, List.filter_cons, List.filter_nil, hA, hB]
      simp
    have hlr1 : loop_ready (valid_deps ex [A, B]) [A, B] = [A] := by
      unfold loop_ready
      rw [hready1]
      rfl
    have hbatch1 : ([{ skill := A, params := pA },
        { skill := B, params := pB }] : List SkillRequest).filter
          (fun r => decide (r.skill ∈
            loop_ready (valid_deps ex [A, B]) [A, B]))
        = [{ skill := A, params := pA }] := by
      rw [hlr1]
      simp [hBA]
    have hrem1 : ([A, B] : List String).filter
        (fun n => decide (n ∉ loop_ready (valid_deps ex [A, B]) [A, B]))
        = [B] := by
      rw [hlr1]
      simp [hBA]
    have hready2 : ready_skills0 (valid_deps ex [A, B]) [B] = [B] := by
      unfold ready_skills0
      rw [List.filter_cons, List.filter_nil, hB]
      simp [hAB]
    have hlr2 : loop_ready (valid_deps ex [A, B]) [B] = [B] := by
      unfold loop_ready
      rw [hready2]
      rfl
    have hbatch2 : ([{ skill := A, params := pA },
        { skill := B, params := pB }] : List SkillRequest).filter
          (fun r => decide (r.skill ∈
            loop_ready (valid_deps ex [A, B]) [B]))
        = [{ skill := B, params := pB }] := by
      rw [hlr2]
      simp [hAB]
    have hrem2 : ([B] : List String).filter
        (fun n => decide (n ∉ loop_ready (valid_deps ex [A, B]) [B]))
        = [] := by
      rw [hlr2]
      simp
    rw [schedule_loop_cons_eq _ _ [A, B] rfl, hrem1,
      schedule_loop_cons_eq _ _ [B] rfl, hrem2,
      schedule_loop_eq_nil _ _ [] rfl]
    simp only [List.map_cons, List.map_nil]
    rw [hbatch1, hbatch2]

/-- Witness for C2: with the dependency `b -> a`, the two-skill request
yields the two singleton batches in dependency order. -/
theorem claim_C2_witness :
    build_execution_batches
        { registry := SkillRegistry.mk_default.asObject,
          dependency_graph := [("b", ["a"])] }
        [{ skill := "a" }, { skill := "b" }]
      = [[{ skill := "a" }], [{ skill := "b" }]] :=
  (claim_C2_batches_respect_dependencies
      { registry := SkillRegistry.mk_default.asObject,
        dependency_graph := [("b", ["a"])] }
      [{ skill := "a" }, { skill := "b" }]).2.2 "a" "b" [] []
    (by decide) (by decide) (by decide)

/-- C5: cycle termination.  Scheduling always terminates (the loop is a
total function); a cycle-forced batch is always the last batch; every
request is scheduled into some batch; `execute_skills` returns one result
per request; and the three-skill cycle `A -> B -> C -> A` collapses into a
single forced batch holding all three requests. -/
theorem claim_C5_cycle_termination (ex : ParallelSkillExecutor)
    (env : SkillEnv) (reqs : List SkillRequest) :
    (∀ k batch, (batches_flagged ex reqs)[k]? = some (batch, true) →
      k + 1 = (batches_flagged ex reqs).length)
    ∧ (∀ r ∈ reqs, r ∈ (build_execution_batches ex reqs).flatten)
    ∧ (execute_skills ex env reqs).length = reqs.length
    ∧ (∀ A B C pA pB pC, A ≠ B → A ≠ C → B ≠ C →
        valid_deps ex [A, B, C] A = [B] →
        valid_deps ex [A, B, C] B = [C] →
        valid_deps ex [A, B, C] C = [A] →
        batches_flagged ex
            [{ skill := A, params := pA }, { skill := B, params := pB },
             { skill := C, params := pC }]
          = [([{ skill := A, params := pA }, { skill := B, params := pB },
               { skill := C, params := pC }], true)]) := by
  refine ⟨?_, ?_, execute_skills_length ex env reqs, ?_⟩
  · intro k batch hget
    unfold batches_flagged at hget ⊢
    exact loop_forced_last _ reqs _ _ le_rfl k batch hget
  · intro r hr
    have hskill : r.skill ∈ (reqs.map (fun r => r.skill)).dedup := by
      rw [List.mem_dedup]
      exact List.mem_map_of_mem _ hr
    obtain ⟨p, hp, hrp⟩ := loop_covers
        (valid_deps ex (reqs.map (fun r => r.skill))) reqs
        ((reqs.map (fun r => r.skill)).dedup).length
        ((reqs.map (fun r => r.skill)).dedup) le_rfl r hr hskill
    refine List.mem_flatten.mpr ⟨p.fst, ?_, hrp⟩
    unfold build_execution_batches batches_flagged
    exact List.mem_map_of_mem _ hp
  · intro A B C pA pB pC hAB hAC hBC hA hB hC
    unfold batches_flagged
    have hmap : ([{ skill := A, params := pA }, { skill := B, params := pB },
        { skill := C, params := pC }] : List SkillRequest).map
          (fun r => r.skill) = [A, B, C] := rfl
    rw [hmap]
    have hded : ([A, B, C] : List String).dedup = [A, B, C] := by
      rw [List.dedup_cons_of_not_mem (by simp [hAB, hAC]),
        List.dedup_cons_of_not_mem (by simp [hBC]),
        List.dedup_cons_of_not_mem (by simp), List.dedup_nil]
    rw [hded]
    have hready0 : ready_skills0 (valid_deps ex [A, B, C]) [A, B, C]
        = [] := by
      unfold ready_skills0
      rw [List.filter_cons, List.filter_cons, List.filter_cons,
        List.filter_nil, hA, hB, hC]
      simp
    have hlr : loop_ready (valid_deps ex [A, B, C]) [A, B, C]
        = [A, B, C] := by
      unfold loop_ready
      rw [hready0]
      rfl
    have hbatch : ([{ skill := A, params := pA },
        { skill := B, params := pB },
        { skill := C, params := pC }] : List SkillRequest).filter
          (fun r => decide (r.skill ∈
            loop_ready (valid_deps ex [A, B, C]) [A, B, C]))
        = [{ skill := A, params := pA }, { skill := B, params := pB },
           { skill := C, params := pC }] := by
      rw [hlr]
      simp
    have hrem : ([A, B, C] : List String).filter
        (fun n => decide (n ∉
          loop_ready (valid_deps ex [A, B, C]) [A, B, C])) = [] := by
      rw [hlr]
      simp
    rw [schedule_loop_cons_eq _ _ [A, B, C] rfl, hrem,
      schedule_loop_eq_nil _ _ [] rfl, hbatch, hready0]
    rfl

/-- Witness for C5 at the concrete cycle `a -> b -> c -> a`: one forced
batch holding all three requests. -/
theorem claim_C5_witness :
    batches_flagged
        { registry := SkillRegistry.mk_default.asObject,
          dependency_graph := [("a", ["b"]), ("b", ["c"]), ("c", ["a"])] }
        [{ skill := "a" }, { skill := "b" }, { skill := "c" }]
      = [([{ skill := "a" }, { skill := "b" }, { skill := "c" }], true)] :=
  (claim_C5_cycle_termination
      { registry := SkillRegistry.mk_default.asObject,
        dependency_graph := [("a", ["b"]), ("b", ["c"]), ("c", ["a"])] }
      (fun _ => SkillOutcome.ok none none 0)
      [{ skill := "a" }, { skill := "b" }, { skill := "c" }]).2.2.2
    "a" "b" "c" [] [] [] (by decide) (by decide) (by decide)
    (by decide) (by decide) (by decide)

/-- C3 counterexample: with the shipped `SkillRegistry`, a request whose
skill id resolves to nothing still participates in batch construction (its
request is placed in a batch), and the error of the result is the
`AttributeError` text of the missing `get_skill` method — it does not carry
the skill-not-found message.  This refutes the claim that an unresolvable
id is kept out of batching and reported as a not-found failure. -/
theorem claim_C3_counterexample :
    (∃ b ∈ build_execution_batches
        { registry := SkillRegistry.mk_default.asObject }
        [{ skill := "nonexistent_skill" }],
      ({ skill := "nonexistent_skill" } : SkillRequest) ∈ b)
    ∧ SkillRegistry.mk_default.get "nonexistent_skill" = none
    ∧ execute_skills { registry := SkillRegistry.mk_default.asObject }
        (fun _ => SkillOutcome.ok none none 0)
        [{ skill := "nonexistent_skill" }]
      = [{ skill_name := "nonexistent_skill", success := false,
           error := some attributeErrorGetSkill, execution_time := 0 }]
    ∧ strContains attributeErrorGetSkill "未找到" = false
    ∧ attributeErrorGetSkill ≠ "Skill nonexistent_skill 未找到" := by
  refine ⟨?_, by decide, ?_, by decide, by decide⟩
  · simp only [build_execution_batches, batches_flagged_eq_fuel]
    decide
  · simp only [execute_skills, build_execution_batches,
      batches_flagged_eq_fuel]
    decide

/-- Every resolution attempt against a registry object with no `get_skill`
attribute yields the `AttributeError` failure result. -/
lemma execute_single_skill_no_attr (ex : ParallelSkillExecutor)
    (env : SkillEnv) (q : SkillRequest)
    (h : ex.registry.get_skill = none) :
    execute_single_skill ex env q
      = { skill_name := q.skill, success := false,
          error := some attributeErrorGetSkill, execution_time := 0 } := by
  unfold execute_single_skill
  rw [h]

/-- C3 (amended): an unresolvable skill id still yields a failed result at
its original position and the scheduler returns normally with one result
per request, but (a) the error it carries is the `AttributeError` raised by
the missing `SkillRegistry.get_skill` method, not a skill-not-found
message, and (b) the request does participate in batch construction like
any other. -/
theorem claim_C3_amended (reg : SkillRegistry) (mc : Nat) (dt : ℚ)
    (g : List (String × List String)) (env : SkillEnv)
    (reqs : List SkillRequest) (i : Nat) (hi : i < reqs.length) :
    (execute_skills (mk_with_skill_registry reg mc dt g) env reqs).length
      = reqs.length
    ∧ (∃ res,
        (execute_skills (mk_with_skill_registry reg mc dt g) env reqs)[i]?
          = some res
        ∧ res.skill_name = reqs[i].skill
        ∧ res.success = false
        ∧ res.error = some attributeErrorGetSkill)
    ∧ (∃ b ∈ build_execution_batches (mk_with_skill_registry reg mc dt g)
        reqs, reqs[i] ∈ b) := by
  have hmemi : reqs[i] ∈ reqs := List.getElem_mem hi
  have hskilli : reqs[i].skill ∈ (reqs.map (fun r => r.skill)).dedup := by
    rw [List.mem_dedup]
    exact List.mem_map_of_mem _ hmemi
  obtain ⟨p, hp, hrp⟩ := loop_covers
      (valid_deps (mk_with_skill_registry reg mc dt g)
        (reqs.map (fun r => r.skill))) reqs
      ((reqs.map (fun r => r.skill)).dedup).length
      ((reqs.map (fun r => r.skill)).dedup) le_rfl reqs[i] hmemi hskilli
  have hbatches : ∃ b ∈ build_execution_batches
      (mk_with_skill_registry reg mc dt g) reqs, reqs[i] ∈ b := by
    refine ⟨p.fst, ?_, hrp⟩
    unfold build_execution_batches batches_flagged
    exact List.mem_map_of_mem _ hp
  refine ⟨execute_skills_length _ env reqs, ?_, hbatches⟩
  have hflat : reqs[i] ∈ (build_execution_batches
      (mk_with_skill_registry reg mc dt g) reqs).flatten := by
    obtain ⟨b, hb, hrb⟩ := hbatches
    exact List.mem_flatten.mpr ⟨b, hb, hrb⟩
  have hemp : reqs.isEmpty = false :=
    List.isEmpty_eq_false.mpr
      (List.ne_nil_of_length_pos (Nat.lt_of_le_of_lt (Nat.zero_le i) hi))
  have hsingle : execute_single_skill (mk_with_skill_registry reg mc dt g)
      env reqs[i]
      = { skill_name := reqs[i].skill, success := false,
          error := some attributeErrorGetSkill, execution_time := 0 } :=
    execute_single_skill_no_attr _ env reqs[i] rfl
  have hmemres :
      ({ skill_name := reqs[i].skill, success := false,
         error := some attributeErrorGetSkill, execution_time := 0 } :
        SkillExecutionResult)
      ∈ ((build_execution_batches (mk_with_skill_registry reg mc dt g)
            reqs).map
          (execute_batch (mk_with_skill_registry reg mc dt g) env)).flatten
      := by
    rw [all_results_eq_map, ← hsingle]
    exact List.mem_map_of_mem _ hflat
  have hfind : (results_dict ((build_execution_batches
      (mk_with_skill_registry reg mc dt g) reqs).map
        (execute_batch (mk_with_skill_registry reg mc dt g) env)).flatten
      reqs[i].skill).isSome := by
    unfold results_dict
    rw [List.find?_isSome]
    refine ⟨_, List.mem_reverse.mpr hmemres, ?_⟩
    simp
  obtain ⟨resv, hresv⟩ := Option.isSome_iff_exists.mp hfind
  obtain ⟨hresv_mem, hresv_name⟩ := results_dict_mem _ _ resv hresv
  have hresv_eq :
      resv = { skill_name := reqs[i].skill, success := false,
               error := some attributeErrorGetSkill,
               execution_time := 0 } := by
    rw [all_results_eq_map] at hresv_mem
    obtain ⟨q2, _, hq2⟩ := List.mem_map.mp hresv_mem
    rw [← hq2, execute_single_skill_no_attr _ env q2 rfl]
    rw [← hq2, execute_single_skill_no_attr _ env q2 rfl] at hresv_name
    simp only at hresv_name
    rw [hresv_name]
  refine ⟨{ skill_name := reqs[i].skill, success := false,
            error := some attributeErrorGetSkill,
            execution_time := 0 }, ?_, rfl, rfl, rfl⟩
  unfold execute_skills
  simp only [hemp, Bool.false_eq_true, if_false, List.getElem?_map,
    List.getElem?_eq_getElem hi]
  dsimp only [Option.map]
  rw [hresv, hresv_eq]

/-- Witness for C3 (amended) at the unresolvable id
`"nonexistent_skill"`. -/
theorem claim_C3_amended_witness :
    ∃ res, (execute_skills
        (mk_with_skill_registry SkillRegistry.mk_default 5 30
          [("analyze_root_cause", ["query_metrics"])])
        (fun _ => SkillOutcome.ok none none 0)
        [{ skill := "nonexistent_skill" }])[0]? = some res
      ∧ res.skill_name
          = ([{ skill := "nonexistent_skill" }] :
              List SkillRequest)[0].skill
      ∧ res.success = false
      ∧ res.error = some attributeErrorGetSkill :=
  (claim_C3_amended SkillRegistry.mk_default 5 30
      [("analyze_root_cause", ["query_metrics"])]
      (fun _ => SkillOutcome.ok none none 0)
      [{ skill := "nonexistent_skill" }] 0 (by decide)).2.1

/-- C10: with any `SkillRegistry`-backed executor, skill resolution calls
the undefined `registry.get_skill`, so every returned result is a failure
with a non-empty error — the success branch of `_execute_single_skill` is
unreachable. -/
theorem claim_C10_every_result_fails (reg : SkillRegistry) (mc : Nat)
    (dt : ℚ) (g : List (String × List String)) (env : SkillEnv)
    (reqs : List SkillRequest) (hne : reqs ≠ []) :
    ∀ res ∈ execute_skills (mk_with_skill_registry reg mc dt g) env reqs,
      res.success = false ∧ ∃ e, res.error = some e ∧ e ≠ "" := by
  intro res hres
  rcases mem_execute_skills _ env reqs res hres with ⟨q, hq⟩ | ⟨hs, he⟩
  · rw [execute_single_skill_no_attr _ env q rfl] at hq
    refine ⟨by rw [hq], attributeErrorGetSkill, by rw [hq], by decide⟩
  · refine ⟨hs, "Skill " ++ res.skill_name ++ " 未找到或执行失败", he, ?_⟩
    intro hcon
    have hlen := congrArg String.length hcon
    rw [String.length_append, String.length_append] at hlen
    have h6 : ("Skill " : String).length = 6 := by decide
    have h0 : ("" : String).length = 0 := by decide
    omega

/-- Witness for C10: a request for the registered skill
`"QueryMetricsSkill"` with an always-succeeding handler environment still
comes back as a failure carrying the `get_skill` attribute error. -/
theorem claim_C10_witness :
    execute_skills
        (mk_with_skill_registry SkillRegistry.mk_default 5 30
          [("analyze_root_cause", ["query_metrics"])])
        (fun _ => SkillOutcome.ok none none 0)
        [{ skill := "QueryMetricsSkill" }]
      = [{ skill_name := "QueryMetricsSkill", success := false,
           error := some attributeErrorGetSkill, execution_time := 0 }]
    ∧ (({ skill_name := "QueryMetricsSkill", success := false,
          error := some attributeErrorGetSkill, execution_time := 0 } :
          SkillExecutionResult).success = false
        ∧ ∃ e, ({ skill_name := "QueryMetricsSkill", success := false,
                  error := some attributeErrorGetSkill,
                  execution_time := 0 } :
            SkillExecutionResult).error = some e ∧ e ≠ "") := by
  have heval : execute_skills
      (mk_with_skill_registry SkillRegistry.mk_default 5 30
        [("analyze_root_cause", ["query_metrics"])])
      (fun _ => SkillOutcome.ok none none 0)
      [{ skill := "QueryMetricsSkill" }]
      = [{ skill_name := "QueryMetricsSkill", success := false,
           error := some attributeErrorGetSkill, execution_time := 0 }] := by
    simp only [execute_skills, build_execution_batches,
      batches_flagged_eq_fuel]
    decide
  refine ⟨heval, ?_⟩
  exact claim_C10_every_result_fails SkillRegistry.mk_default 5 30
    [("analyze_root_cause", ["query_metrics"])]
    (fun _ => SkillOutcome.ok none none 0)
    [{ skill := "QueryMetricsSkill" }] (by decide) _
    (by rw [heval]; exact List.mem_singleton_self _)

end AgentMvp
